import Mathlib

/-!
# ldap-proxy: session lifecycle manager

A shallow embedding of `src/ldap_proxy.go` (the `ldapHandler` methods
`getSession`, `Bind`, `Search`, `Close` and the function `connID`).

Conventions of the embedding.

* A Go `string` is a Lean `String`; a Go `error` value is an `Error`
  (`nil` is `none`).
* The handler's `sessions` map is a function from keys to optional sessions
  (Go maps have unique keys and no order).
* Everything the handlers do to the outside (client socket, backend
  connection, network) is recorded, in call order, in the `trace` of a `World`;
  what the outside answers is given by an `Upstream` oracle that may depend on
  the whole history.
* Library declarations that are not part of the repository (`SearchRequest`,
  `ServerSearchResult`, the result codes, SHA-256) are taken from the imported
  packages; SHA-256 itself is a parameter `sha`.
-/

namespace LdapProxy

/-! ## Library types and constants -/

/-- A Go `error` value that is not `nil`. -/
abbrev Error := String

/-- One octet. -/
abbrev Byte := Fin 256

/-- Library type `ldapServer.LDAPResultCode`. -/
abbrev LDAPResultCode := Nat

/-- Library constant `ldapServer.LDAPResultSuccess`. -/
def LDAPResultSuccess : LDAPResultCode := 0

/-- Library constant `ldapServer.LDAPResultOperationsError`. -/
def LDAPResultOperationsError : LDAPResultCode := 1

/-- Library constant `ldapServer.LDAPResultInvalidCredentials`. -/
def LDAPResultInvalidCredentials : LDAPResultCode := 49

/-- Library constant `ldapClient.ScopeBaseObject`. -/
def ScopeBaseObject : Nat := 0

/-- Library constant `ldapClient.ScopeSingleLevel`. -/
def ScopeSingleLevel : Nat := 1

/-- Library constant `ldapClient.ScopeWholeSubtree`. -/
def ScopeWholeSubtree : Nat := 2

/-- Library constant `ldapClient.NeverDerefAliases`. -/
def NeverDerefAliases : Nat := 0

/-- Library constant `ldapClient.DerefAlways`. -/
def DerefAlways : Nat := 3

/-- Library type `ldapServer.Control` (an interface of the library; only its identity matters here). -/
abbrev Control := String

/-- Library type `ldapServer.Entry`: a DN with its attributes. -/
structure Entry where
  DN : String
  Attributes : List (String × List String)
  deriving DecidableEq, Repr

/-- Library type `ldapServer.SearchRequest`. -/
structure SearchRequest where
  BaseDN : String
  Scope : Nat
  DerefAliases : Nat
  SizeLimit : Nat
  TimeLimit : Nat
  TypesOnly : Bool
  Filter : String
  Attributes : List String
  Controls : List Control
  deriving DecidableEq, Repr

/-- Library function `ldapServer.NewSearchRequest`: the library constructor, which stores its
arguments field by field. -/
def NewSearchRequest (BaseDN : String) (Scope DerefAliases SizeLimit TimeLimit : Nat)
    (TypesOnly : Bool) (Filter : String) (Attributes : List String)
    (Controls : List Control) : SearchRequest :=
  { BaseDN := BaseDN, Scope := Scope, DerefAliases := DerefAliases, SizeLimit := SizeLimit,
    TimeLimit := TimeLimit, TypesOnly := TypesOnly, Filter := Filter,
    Attributes := Attributes, Controls := Controls }

/-- Library type `ldapServer.SearchResult`: what `SearchWithPaging` returns on success, the
entries of all pages concatenated. -/
structure SearchResult where
  Entries : List Entry
  Referrals : List String
  Controls : List Control
  deriving DecidableEq, Repr

/-- Library type `ldapServer.ServerSearchResult`. The Go zero value `ServerSearchResult{}` is
`{ Entries := [], Referrals := [], Controls := [], ResultCode := 0 }`. -/
structure ServerSearchResult where
  Entries : List Entry
  Referrals : List String
  Controls : List Control
  ResultCode : LDAPResultCode
  deriving DecidableEq, Repr

/-! ## The outside world -/

/-- A client connection (`net.Conn`): the socket object `fd` and the strings
returned by `LocalAddr().String()` and `RemoteAddr().String()`. -/
structure Conn where
  fd : Nat
  localAddr : String
  remoteAddr : String
  deriving DecidableEq, Repr

/-- A backend connection (`*ldapServer.Conn`), as returned non-nil by a
successful `Dial`. -/
abbrev LdapConn := Nat

/-- The calls the handlers make to the outside. `ldapClose` is the library's
`(*Conn).Close`, which `ldap_search.go` calls and `ldap_proxy.go` never does. -/
inductive Event where
  | setDeadline (fd : Nat) (t : Nat)
  | dial (network : String) (addr : String)
  | ldapBind (l : LdapConn) (dn : String) (pw : String)
  | searchWithPaging (l : LdapConn) (req : SearchRequest) (pageSize : Nat)
  | connClose (fd : Nat)
  | ldapClose (l : LdapConn)
  deriving DecidableEq, Repr

/-- The state of the outside: the clock (`time.Now()`, in nanoseconds), the
next backend connection object a successful `Dial` allocates, and the calls
made so far, oldest first. -/
structure World where
  now : Nat
  nextLdap : Nat
  trace : List Event
  deriving DecidableEq, Repr

/-- The answers of the network and of the directory-client library, each a
function of the history and of the arguments of the call. For `dial` and
`bind`, `none` is a `nil` error. -/
structure Upstream where
  dial : List Event → String → String → Option Error
  bind : List Event → LdapConn → String → String → Option Error
  searchWithPaging : List Event → LdapConn → SearchRequest → Nat → Except Error SearchResult

/-! ## Constants and structures of `ldap_proxy.go` -/

/-- Constant `ldapTimeout = 10 * time.Second`, in nanoseconds. -/
def ldapTimeout : Nat := 10 * 1000000000

/-- Structure `type session struct { id string; c net.Conn; ldap *ldapServer.Conn }`. -/
structure session where
  id : String
  c : Conn
  ldap : LdapConn
  deriving DecidableEq, Repr

/-- Structure `type ldapHandler struct`: the sessions map and the upstream host and port.
The `lock` field guards nothing in a single call; it is modelled separately
below (`Mutex`, `Sched`). -/
structure ldapHandler where
  sessions : String → Option session
  ldapServer : String
  ldapPort : String

/-! ## `connID` -/

/-- One lower-case hexadecimal digit, as `fmt` prints it. -/
def hexDigit (n : Nat) : Char :=
  if n < 10 then Char.ofNat (48 + n) else Char.ofNat (87 + n)

/-- A byte printed by the verb `%x`: two hexadecimal digits. -/
def hexByte (b : Byte) : List Char :=
  [hexDigit (b.val / 16), hexDigit (b.val % 16)]

/-- The output of `fmt.Sprintf("% x", bs)` for a byte slice: two hexadecimal
digits per byte, a space between consecutive bytes. -/
def spacedHex : List Byte → List Char
  | [] => []
  | [b] => hexByte b
  | b :: b' :: bs => hexByte b ++ ' ' :: spacedHex (b' :: bs)

/-- Function `connID`: the digest of the concatenation of the local and the remote
endpoint string, printed with `"% x"`. `sha` is SHA-256 on the bytes of a Go
string (`h.Write([]byte(connString)); h.Sum(nil)`). -/
def connID (sha : String → List Byte) (conn : Conn) : String :=
  let connString := conn.localAddr ++ conn.remoteAddr
  String.mk (spacedHex (sha connString))

/-- Library function `net.JoinHostPort`, by which `(*net.TCPAddr).String()` prints
the address of a TCP connection, so what `conn.LocalAddr().String()` returns:
`host:port`, or `[host]:port` when the host (an IPv6 literal) has a colon. -/
def JoinHostPort (host port : String) : String :=
  if ':' ∈ host.toList then "[" ++ host ++ "]:" ++ port else host ++ ":" ++ port

/-! ## `getSession`, `Bind`, `Search`, `Close` -/

/-- Appends a call to the history. -/
def World.emit (w : World) (e : Event) : World :=
  { w with trace := w.trace ++ [e] }

/-- The Go statement `h.sessions[k] = s`. -/
def mapSet (m : String → Option session) (k : String) (s : session) :
    String → Option session :=
  fun k' => if k' = k then some s else m k'

/-- The Go statement `delete(h.sessions, k)`. -/
def mapDelete (m : String → Option session) (k : String) : String → Option session :=
  fun k' => if k' = k then none else m k'

/-- Method `func (h ldapHandler) getSession(conn net.Conn) (session, error)`.
Returns `(session{}, err)` as `.error err` and `(s, nil)` as `.ok s`, with the
handler (whose map is shared by reference) and the world after the call. -/
def getSession (sha : String → List Byte) (up : Upstream) (h : ldapHandler) (w : World)
    (conn : Conn) : Except Error session × ldapHandler × World :=
  let w1 := w.emit (.setDeadline conn.fd (w.now + ldapTimeout))
  let id := connID sha conn
  match h.sessions id with
  | some s => (.ok s, h, w1)
  | none =>
    let addr := h.ldapServer ++ ":" ++ h.ldapPort
    let w2 := w1.emit (.dial "tcp" addr)
    match up.dial w1.trace "tcp" addr with
    | some err => (.error err, h, w2)
    | none =>
      let l : LdapConn := w2.nextLdap
      let w3 := { w2 with nextLdap := w2.nextLdap + 1 }
      let s : session := { id := id, c := conn, ldap := l }
      (.ok s, { h with sessions := mapSet h.sessions s.id s }, w3)

/-- Method `func (h ldapHandler) Bind(bindDN, bindSimplePw string, conn net.Conn)
(ldapServer.LDAPResultCode, error)`. -/
def Bind (sha : String → List Byte) (up : Upstream) (h : ldapHandler) (w : World)
    (bindDN bindSimplePw : String) (conn : Conn) :
    (LDAPResultCode × Option Error) × ldapHandler × World :=
  match getSession sha up h w conn with
  | (.error err, h1, w1) => ((LDAPResultOperationsError, some err), h1, w1)
  | (.ok s, h1, w1) =>
    let w2 := w1.emit (.ldapBind s.ldap bindDN bindSimplePw)
    match up.bind w1.trace s.ldap bindDN bindSimplePw with
    | some err => ((LDAPResultInvalidCredentials, some err), h1, w2)
    | none => ((LDAPResultSuccess, none), h1, w2)

/-- Method `func (h ldapHandler) Search(boundDN string, searchReq ldapServer.SearchRequest,
conn net.Conn) (ldapServer.ServerSearchResult, error)`. -/
def Search (sha : String → List Byte) (up : Upstream) (h : ldapHandler) (w : World)
    (_boundDN : String) (searchReq : SearchRequest) (conn : Conn) :
    (ServerSearchResult × Option Error) × ldapHandler × World :=
  match getSession sha up h w conn with
  | (.error _, h1, w1) =>
    (({ Entries := [], Referrals := [], Controls := [],
        ResultCode := LDAPResultOperationsError }, none), h1, w1)
  | (.ok s, h1, w1) =>
    let search := NewSearchRequest searchReq.BaseDN ScopeWholeSubtree NeverDerefAliases
      64 10 false searchReq.Filter searchReq.Attributes []
    let w2 := w1.emit (.searchWithPaging s.ldap search 64)
    match up.searchWithPaging w1.trace s.ldap search 64 with
    | .error err =>
      (({ Entries := [], Referrals := [], Controls := [], ResultCode := 0 }, some err), h1, w2)
    | .ok sr =>
      (({ Entries := sr.Entries, Referrals := [], Controls := [],
          ResultCode := LDAPResultSuccess }, none), h1, w2)

/-- Method `func (h ldapHandler) Close(conn net.Conn) error`. -/
def Close (sha : String → List Byte) (h : ldapHandler) (w : World) (conn : Conn) :
    Option Error × ldapHandler × World :=
  let w1 := w.emit (.connClose conn.fd)
  (none, { h with sessions := mapDelete h.sessions (connID sha conn) }, w1)

/-! ## Concrete instances used to evaluate the model -/

/-- A stand-in for the digest at concrete inputs: three octets per character
(its code point in base 256). Distinct strings have distinct images. -/
def charOctets (s : String) : List Byte :=
  s.toList.flatMap fun c =>
    [Fin.ofNat (c.toNat / 65536), Fin.ofNat (c.toNat / 256), Fin.ofNat c.toNat]

/-- A backend that is reachable, accepts exactly the password `secret` and
answers every search with two entries. -/
def upServing : Upstream where
  dial := fun _ _ _ => none
  bind := fun _ _ _ pw => if pw = "secret" then none else some "Invalid Credentials"
  searchWithPaging := fun _ _ _ _ =>
    .ok { Entries := [⟨"cn=a,dc=example,dc=com", []⟩, ⟨"cn=b,dc=example,dc=com", []⟩],
          Referrals := ["ldap://elsewhere"], Controls := ["paging"] }

/-- A backend that cannot be reached, and whose searches fail. -/
def upDown : Upstream where
  dial := fun _ _ _ => some "connection refused"
  bind := fun _ _ _ _ => some "closed"
  searchWithPaging := fun _ _ _ _ => .error "closed"

/-- The handler of `startListener`: an empty sessions map. -/
def handler0 : ldapHandler :=
  { sessions := fun _ => none, ldapServer := "ldap.example.com", ldapPort := "389" }

/-- A world in which nothing has happened yet. -/
def world0 : World := { now := 0, nextLdap := 0, trace := [] }

/-- A client connection. -/
def connA : Conn := { fd := 7, localAddr := "10.0.0.1:389", remoteAddr := "10.0.0.9:40000" }

/-- A client connection from `89.1.1.1` to local port `3`. -/
def connC : Conn := { fd := 9, localAddr := "10.0.0.1:3", remoteAddr := "89.1.1.1:5000" }

/-- A client connection from `9.1.1.1` to local port `38`. -/
def connD : Conn := { fd := 10, localAddr := "10.0.0.1:38", remoteAddr := "9.1.1.1:5000" }

/-- A later client connection (another socket) with the endpoint pair of `connA`. -/
def connB : Conn := { fd := 8, localAddr := "10.0.0.1:389", remoteAddr := "10.0.0.9:40000" }

/-- The handler after a first `getSession` for `connA` on a reachable backend:
its sessions map holds one session, with backend connection `0`. -/
def handlerA : ldapHandler := (getSession charOctets upServing handler0 world0 connA).2.1

/-- The world after that first `getSession`. -/
def worldA : World := (getSession charOctets upServing handler0 world0 connA).2.2

/-- A client search request asking for base-object scope, always-dereference,
size limit 5, time limit 1 and attribute names only. -/
def reqA : SearchRequest :=
  { BaseDN := "dc=example,dc=com", Scope := ScopeBaseObject, DerefAliases := DerefAlways,
    SizeLimit := 5, TimeLimit := 1, TypesOnly := true, Filter := "(objectClass=*)",
    Attributes := ["cn", "memberof"], Controls := ["c"] }

/-- The number of `Dial` calls in a history. -/
def dialCount (tr : List Event) : Nat :=
  tr.countP fun e => match e with
    | .dial _ _ => true
    | _ => false

/-- The `SearchWithPaging` calls in a history, oldest first: backend connection,
request and page size of each. -/
def searchCalls (tr : List Event) : List (LdapConn × SearchRequest × Nat) :=
  tr.filterMap fun e => match e with
    | .searchWithPaging l req pageSize => some (l, req, pageSize)
    | _ => none

/-- Every backend connection held in the sessions map was allocated by an
earlier `Dial` of this world. -/
def Allocated (h : ldapHandler) (w : World) : Prop :=
  ∀ k s, h.sessions k = some s → s.ldap < w.nextLdap

/-- A call a client can cause on the handler other than `Close`: `getSession`
itself, `Bind` or `Search`, on any client connection. -/
inductive Call where
  | getSession (conn : Conn)
  | Bind (bindDN : String) (bindSimplePw : String) (conn : Conn)
  | Search (boundDN : String) (searchReq : SearchRequest) (conn : Conn)
  deriving DecidableEq, Repr

/-- The handler and the world after one such call. -/
def Call.run (sha : String → List Byte) (up : Upstream) (h : ldapHandler) (w : World) :
    Call → ldapHandler × World
  | .getSession conn => (LdapProxy.getSession sha up h w conn).2
  | .Bind bindDN bindSimplePw conn => (LdapProxy.Bind sha up h w bindDN bindSimplePw conn).2
  | .Search boundDN searchReq conn => (LdapProxy.Search sha up h w boundDN searchReq conn).2

/-- The handler and the world after a sequence of such calls, run in order. -/
def runCalls (sha : String → List Byte) (up : Upstream) (h : ldapHandler) (w : World) :
    List Call → ldapHandler × World
  | [] => (h, w)
  | c :: cs => runCalls sha up (c.run sha up h w).1 (c.run sha up h w).2 cs

/-- A client connected to another address of the proxy host, same port, from the
remote endpoint of `connA`. -/
def connF : Conn := { fd := 13, localAddr := "10.0.0.2:389", remoteAddr := "10.0.0.9:40000" }

/-- Another client, connected from another host. -/
def connE : Conn := { fd := 12, localAddr := "10.0.0.1:389", remoteAddr := "10.0.0.7:51000" }

/-! ## The lock

`ldapHandler` holds its lock by value (`lock sync.Mutex`) and every method has a
value receiver (`func (h ldapHandler) getSession`, `Bind`, `Search`, `Close`), so
the `h` of a call is a copy of the handler the call was made on: its `sessions`
field refers to the one shared map, its `lock` field is a mutex of its own,
copied in the state the caller's mutex was in. The model below runs several
calls on the handler registered by `startListener`, one step of one call at a
time. -/

/-- A `sync.Mutex` value. The zero value is unlocked. -/
structure Mutex where
  locked : Bool
  deriving DecidableEq, Repr

/-- The statements of `getSession` and `Close`, as far as the lock and the map
are concerned: `h.lock.Lock()`, `h.lock.Unlock()`, `s, ok := h.sessions[id]`,
`h.sessions[s.id] = s`, `delete(h.sessions, connID(conn))`, and `io` for a call
to the outside (`conn.SetDeadline`, `ldapServer.Dial`, `conn.Close`). -/
inductive Instr where
  | lock
  | unlock
  | mapRead
  | mapWrite
  | mapDelete
  | io
  deriving DecidableEq, Repr

/-- The statements of `getSession` when the identity is in the map:
`SetDeadline`, `Lock`, lookup, `Unlock`. -/
def getSessionHitCode : List Instr := [.io, .lock, .mapRead, .unlock]

/-- The statements of `getSession` when the identity is not in the map and the
dial succeeds: `SetDeadline`, `Lock`, lookup, `Unlock`, `Dial`, `Lock`, insert,
`Unlock`. -/
def getSessionMissCode : List Instr :=
  [.io, .lock, .mapRead, .unlock, .io, .lock, .mapWrite, .unlock]

/-- The statements of `Close`: `conn.Close()`, `Lock`, `delete`, and the
deferred `Unlock`. -/
def CloseCode : List Instr := [.io, .lock, .mapDelete, .unlock]

/-- A call in progress: the `lock` field of its receiver `h` and the statements
it has still to run. -/
structure Frame where
  lock : Mutex
  code : List Instr
  deriving DecidableEq, Repr

/-- The handler registered by `startListener` (its `lock` field) and the calls
in progress on it. -/
structure Sched where
  handlerLock : Mutex
  frames : List Frame
  deriving DecidableEq, Repr

/-- What can happen next: a new call on the handler, or the next statement of
the call number `i`. -/
inductive Action where
  | call (code : List Instr)
  | step (i : Nat)
  deriving DecidableEq, Repr

/-- One action. A new call copies the handler into its receiver, the lock
included. `Lock` on a locked mutex cannot proceed (`none`); `Lock` and `Unlock`
act on the receiver's mutex. -/
def Sched.act (s : Sched) : Action → Option Sched
  | .call code => some { s with frames := s.frames ++ [{ lock := s.handlerLock, code := code }] }
  | .step i =>
    match s.frames[i]? with
    | none => none
    | some f =>
      match f.code with
      | [] => none
      | .lock :: rest =>
        if f.lock.locked then none
        else some { s with frames := s.frames.set i { lock := { locked := true }, code := rest } }
      | .unlock :: rest =>
        some { s with frames := s.frames.set i { lock := { locked := false }, code := rest } }
      | _ :: rest => some { s with frames := s.frames.set i { f with code := rest } }

/-- A sequence of actions, in order; `none` when one of them cannot proceed. -/
def Sched.run (s : Sched) : List Action → Option Sched
  | [] => some s
  | a :: as =>
    match s.act a with
    | none => none
    | some s1 => s1.run as

/-- The call is between its `Lock` and its `Unlock`, about to access the map. -/
def Frame.accessing (f : Frame) : Bool :=
  match f.code with
  | .mapRead :: _ => true
  | .mapWrite :: _ => true
  | .mapDelete :: _ => true
  | _ => false

/-- The handler as `startListener` builds it: the zero `sync.Mutex`, no call in
progress. -/
def sched0 : Sched := { handlerLock := { locked := false }, frames := [] }

/-! ## Lemmas on `getSession` -/

theorem getSession_hit (sha : String → List Byte) (up : Upstream) (h : ldapHandler)
    (w : World) (conn : Conn) (s : session) (hs : h.sessions (connID sha conn) = some s) :
    getSession sha up h w conn
      = (.ok s, h, w.emit (.setDeadline conn.fd (w.now + ldapTimeout))) := by
  simp [getSession, hs]

theorem getSession_miss_fail (sha : String → List Byte) (up : Upstream) (h : ldapHandler)
    (w : World) (conn : Conn) (e : Error) (hs : h.sessions (connID sha conn) = none)
    (hd : up.dial (w.trace ++ [.setDeadline conn.fd (w.now + ldapTimeout)]) "tcp"
      (h.ldapServer ++ ":" ++ h.ldapPort) = some e) :
    getSession sha up h w conn
      = (.error e, h, (w.emit (.setDeadline conn.fd (w.now + ldapTimeout))).emit
          (.dial "tcp" (h.ldapServer ++ ":" ++ h.ldapPort))) := by
  simp [getSession, hs, World.emit, hd]

theorem getSession_miss_ok (sha : String → List Byte) (up : Upstream) (h : ldapHandler)
    (w : World) (conn : Conn) (hs : h.sessions (connID sha conn) = none)
    (hd : up.dial (w.trace ++ [.setDeadline conn.fd (w.now + ldapTimeout)]) "tcp"
      (h.ldapServer ++ ":" ++ h.ldapPort) = none) :
    getSession sha up h w conn
      = (.ok { id := connID sha conn, c := conn, ldap := w.nextLdap },
         { h with
           sessions := mapSet h.sessions (connID sha conn) ⟨connID sha conn, conn, w.nextLdap⟩ },
         { now := w.now, nextLdap := w.nextLdap + 1,
           trace := w.trace ++ [.setDeadline conn.fd (w.now + ldapTimeout)]
             ++ [.dial "tcp" (h.ldapServer ++ ":" ++ h.ldapPort)] }) := by
  simp [getSession, hs, World.emit, hd]

theorem searchCalls_append (a b : List Event) :
    searchCalls (a ++ b) = searchCalls a ++ searchCalls b := by
  simp [searchCalls, List.filterMap_append]

theorem dialCount_append (a b : List Event) :
    dialCount (a ++ b) = dialCount a + dialCount b := by
  simp [dialCount, List.countP_append]

/-- The function `getSession` makes no `SearchWithPaging` call. -/
theorem getSession_searchCalls (sha : String → List Byte) (up : Upstream) (h : ldapHandler)
    (w : World) (conn : Conn) :
    searchCalls (getSession sha up h w conn).2.2.trace = searchCalls w.trace := by
  cases hs : h.sessions (connID sha conn) with
  | some s =>
    rw [getSession_hit sha up h w conn s hs]
    simp [World.emit, searchCalls_append, searchCalls]
  | none =>
    cases hd : up.dial (w.trace ++ [.setDeadline conn.fd (w.now + ldapTimeout)]) "tcp"
      (h.ldapServer ++ ":" ++ h.ldapPort) with
    | some e =>
      rw [getSession_miss_fail sha up h w conn e hs hd]
      simp [World.emit, searchCalls_append, searchCalls]
    | none =>
      rw [getSession_miss_ok sha up h w conn hs hd]
      simp [searchCalls_append, searchCalls]

/-! ## Bind -/

/-- C1. Result mapping of `Bind`. If `getSession` fails with `e`, `Bind` returns
the operations-error code with exactly `e` (and calls no backend bind). If
`getSession` yields a session, `Bind` makes one backend bind call on that
session's backend connection with exactly the DN and password it received; it
returns the success code with no error when that call succeeds, and the
invalid-credentials code with exactly the call's error when it fails. -/
theorem Bind_result_mapping (sha : String → List Byte) (up : Upstream) (h : ldapHandler)
    (w : World) (bindDN bindSimplePw : String) (conn : Conn) :
    (∀ e h1 w1, getSession sha up h w conn = (.error e, h1, w1) →
      Bind sha up h w bindDN bindSimplePw conn
        = ((LDAPResultOperationsError, some e), h1, w1)) ∧
    (∀ s h1 w1, getSession sha up h w conn = (.ok s, h1, w1) →
      (Bind sha up h w bindDN bindSimplePw conn).2.2.trace
        = w1.trace ++ [.ldapBind s.ldap bindDN bindSimplePw] ∧
      (up.bind w1.trace s.ldap bindDN bindSimplePw = none →
        (Bind sha up h w bindDN bindSimplePw conn).1 = (LDAPResultSuccess, none)) ∧
      (∀ e, up.bind w1.trace s.ldap bindDN bindSimplePw = some e →
        (Bind sha up h w bindDN bindSimplePw conn).1
          = (LDAPResultInvalidCredentials, some e))) := by
  refine ⟨?_, ?_⟩
  · intro e h1 w1 hg
    simp [Bind, hg]
  · intro s h1 w1 hg
    refine ⟨?_, ?_, ?_⟩
    · simp only [Bind, hg]
      cases up.bind w1.trace s.ldap bindDN bindSimplePw <;> simp [World.emit]
    · intro hb
      simp [Bind, hg, hb]
    · intro e hb
      simp [Bind, hg, hb]

set_option maxRecDepth 100000 in
/-- The three cases of `Bind_result_mapping` at concrete inputs: accepted
credentials, rejected credentials, unreachable backend. -/
theorem Bind_result_mapping_witness :
    (Bind charOctets upServing handler0 world0 "cn=admin,dc=example,dc=com" "secret" connA).1
      = (LDAPResultSuccess, none) ∧
    (Bind charOctets upServing handler0 world0 "cn=admin,dc=example,dc=com" "wrong" connA).1
      = (LDAPResultInvalidCredentials, some "Invalid Credentials") ∧
    Bind charOctets upDown handler0 world0 "cn=admin,dc=example,dc=com" "secret" connA
      = ((LDAPResultOperationsError, some "connection refused"), handler0,
          { now := 0, nextLdap := 0,
            trace := [.setDeadline 7 10000000000, .dial "tcp" "ldap.example.com:389"] }) :=
  ⟨((Bind_result_mapping charOctets upServing handler0 world0 "cn=admin,dc=example,dc=com"
      "secret" connA).2 _ _ _ rfl).2.1 rfl,
   ((Bind_result_mapping charOctets upServing handler0 world0 "cn=admin,dc=example,dc=com"
      "wrong" connA).2 _ _ _ rfl).2.2 _ rfl,
   (Bind_result_mapping charOctets upDown handler0 world0 "cn=admin,dc=example,dc=com"
      "secret" connA).1 _ _ _ rfl⟩

/-- C7. Failure atomicity of `Bind`: when the sessions map has no entry for the
connection's identity and the backend dial fails with `e`, `Bind` returns the
operations-error code (with `e`), the handler, its sessions map included, is
exactly as before the call, and the map still has no entry for that identity. -/
theorem Bind_dial_failure_atomic (sha : String → List Byte) (up : Upstream)
    (h : ldapHandler) (w : World) (bindDN bindSimplePw : String) (conn : Conn) (e : Error)
    (hmiss : h.sessions (connID sha conn) = none)
    (hdial : up.dial (w.trace ++ [.setDeadline conn.fd (w.now + ldapTimeout)]) "tcp"
      (h.ldapServer ++ ":" ++ h.ldapPort) = some e) :
    (Bind sha up h w bindDN bindSimplePw conn).1 = (LDAPResultOperationsError, some e) ∧
    (Bind sha up h w bindDN bindSimplePw conn).2.1 = h ∧
    (Bind sha up h w bindDN bindSimplePw conn).2.1.sessions (connID sha conn) = none := by
  have hg := getSession_miss_fail sha up h w conn e hmiss hdial
  simp [Bind, hg, hmiss]

/-- An unreachable backend and an empty sessions map: `Bind` reports the
operations error and the map stays empty at the connection's identity. -/
theorem Bind_dial_failure_atomic_witness :
    (Bind charOctets upDown handler0 world0 "cn=admin,dc=example,dc=com" "secret" connA).1
      = (LDAPResultOperationsError, some "connection refused") ∧
    (Bind charOctets upDown handler0 world0 "cn=admin,dc=example,dc=com" "secret" connA).2.1
      = handler0 ∧
    (Bind charOctets upDown handler0 world0 "cn=admin,dc=example,dc=com" "secret"
      connA).2.1.sessions (connID charOctets connA) = none :=
  Bind_dial_failure_atomic charOctets upDown handler0 world0 "cn=admin,dc=example,dc=com"
    "secret" connA "connection refused" rfl rfl

/-! ## Search -/

/-- C2. The request `Search` sends to the backend. Whatever the incoming
request carries, the `SearchWithPaging` calls of the history after `Search` are
those before it followed, when a session was obtained, by exactly one call on
that session's backend connection with page size 64 and a request of scope
whole-subtree, dereferencing never, size limit 64, time limit 10, and the base
DN, filter and attribute list of the incoming request; when no session was
obtained, no call is added. -/
theorem Search_upstream_request (sha : String → List Byte) (up : Upstream) (h : ldapHandler)
    (w : World) (boundDN : String) (searchReq : SearchRequest) (conn : Conn) :
    searchCalls (Search sha up h w boundDN searchReq conn).2.2.trace
      = searchCalls w.trace ++
        match (getSession sha up h w conn).1 with
        | .ok s =>
          [(s.ldap,
            { BaseDN := searchReq.BaseDN, Scope := ScopeWholeSubtree,
              DerefAliases := NeverDerefAliases, SizeLimit := 64, TimeLimit := 10,
              TypesOnly := false, Filter := searchReq.Filter,
              Attributes := searchReq.Attributes, Controls := [] },
            64)]
        | .error _ => [] := by
  rcases hg : getSession sha up h w conn with ⟨r, h1, w1⟩
  have hw : searchCalls w1.trace = searchCalls w.trace := by
    have := getSession_searchCalls sha up h w conn
    rw [hg] at this
    exact this
  cases r with
  | error e => simp [Search, hg, hw]
  | ok s =>
    simp only [Search, hg, NewSearchRequest]
    cases up.searchWithPaging w1.trace s.ldap
      { BaseDN := searchReq.BaseDN, Scope := ScopeWholeSubtree,
        DerefAliases := NeverDerefAliases, SizeLimit := 64, TimeLimit := 10,
        TypesOnly := false, Filter := searchReq.Filter,
        Attributes := searchReq.Attributes, Controls := [] } 64 <;>
      (simp only [World.emit, searchCalls_append, hw]; simp [searchCalls])

set_option maxRecDepth 100000 in
/-- A client request with base-object scope, always-dereference, size limit 5
and time limit 1 reaches the backend as whole-subtree, never-dereference, size
limit 64, time limit 10, page size 64, with its own base DN, filter and
attributes. -/
theorem Search_upstream_request_witness :
    searchCalls (Search charOctets upServing handler0 world0 "cn=admin" reqA connA).2.2.trace
      = [(0,
          { BaseDN := "dc=example,dc=com", Scope := 2, DerefAliases := 0, SizeLimit := 64,
            TimeLimit := 10, TypesOnly := false, Filter := "(objectClass=*)",
            Attributes := ["cn", "memberof"], Controls := [] },
          64)] :=
  Search_upstream_request charOctets upServing handler0 world0 "cn=admin" reqA connA

/-- C5, as stated, fails. With an empty sessions map and an unreachable backend,
session acquisition fails, and `Search` returns no error and no entries, but the
result code of its result is the operations-error code, not the success code. -/
theorem Search_acquisition_failure_code_not_success :
    (getSession charOctets upDown handler0 world0 connA).1 = .error "connection refused" ∧
    (Search charOctets upDown handler0 world0 "cn=admin" reqA connA).1.2 = none ∧
    (Search charOctets upDown handler0 world0 "cn=admin" reqA connA).1.1.Entries = [] ∧
    (Search charOctets upDown handler0 world0 "cn=admin" reqA
      connA).1.1.ResultCode = LDAPResultOperationsError ∧
    (Search charOctets upDown handler0 world0 "cn=admin" reqA
      connA).1.1.ResultCode ≠ LDAPResultSuccess := by
  refine ⟨rfl, rfl, rfl, rfl, ?_⟩
  decide

/-- C5, amended. When the connection's identity is not in the sessions map and
the backend dial fails, `Search` returns no error together with a result that
has no entries, no referrals and no controls and whose result code is the
operations-error code; no search is sent and the handler is unchanged. -/
theorem Search_acquisition_failure (sha : String → List Byte) (up : Upstream)
    (h : ldapHandler) (w : World) (boundDN : String) (searchReq : SearchRequest)
    (conn : Conn) (e : Error)
    (hmiss : h.sessions (connID sha conn) = none)
    (hdial : up.dial (w.trace ++ [.setDeadline conn.fd (w.now + ldapTimeout)]) "tcp"
      (h.ldapServer ++ ":" ++ h.ldapPort) = some e) :
    (Search sha up h w boundDN searchReq conn).1
      = ({ Entries := [], Referrals := [], Controls := [],
           ResultCode := LDAPResultOperationsError }, none) ∧
    (Search sha up h w boundDN searchReq conn).2.1 = h ∧
    searchCalls (Search sha up h w boundDN searchReq conn).2.2.trace = searchCalls w.trace := by
  have hg := getSession_miss_fail sha up h w conn e hmiss hdial
  simp [Search, hg, World.emit, searchCalls_append, searchCalls]

/-- An unreachable backend and an empty sessions map: the result of `Search` is
empty, carries the operations-error code, and comes with no error. -/
theorem Search_acquisition_failure_witness :
    (Search charOctets upDown handler0 world0 "cn=admin" reqA connA).1
      = ({ Entries := [], Referrals := [], Controls := [], ResultCode := 1 }, none) ∧
    (Search charOctets upDown handler0 world0 "cn=admin" reqA connA).2.1 = handler0 ∧
    searchCalls (Search charOctets upDown handler0 world0 "cn=admin" reqA connA).2.2.trace
      = [] :=
  Search_acquisition_failure charOctets upDown handler0 world0 "cn=admin" reqA connA
    "connection refused" rfl rfl

/-- C9. Result mapping of `Search` once `getSession` has yielded a session `s`.
If the paged search on `s`'s backend connection succeeds with entries `E`,
`Search` returns no error and a result with exactly the entries `E`, in order,
an empty referral list, an empty control list and the success code. If it fails
with `e`, `Search` returns `e` with the empty (zero-valued) result. -/
theorem Search_result_mapping (sha : String → List Byte) (up : Upstream) (h : ldapHandler)
    (w : World) (boundDN : String) (searchReq : SearchRequest) (conn : Conn)
    (s : session) (h1 : ldapHandler) (w1 : World)
    (hg : getSession sha up h w conn = (.ok s, h1, w1)) :
    (∀ sr, up.searchWithPaging w1.trace s.ldap
        (NewSearchRequest searchReq.BaseDN ScopeWholeSubtree NeverDerefAliases 64 10 false
          searchReq.Filter searchReq.Attributes []) 64 = .ok sr →
      (Search sha up h w boundDN searchReq conn).1
        = ({ Entries := sr.Entries, Referrals := [], Controls := [],
             ResultCode := LDAPResultSuccess }, none)) ∧
    (∀ e, up.searchWithPaging w1.trace s.ldap
        (NewSearchRequest searchReq.BaseDN ScopeWholeSubtree NeverDerefAliases 64 10 false
          searchReq.Filter searchReq.Attributes []) 64 = .error e →
      (Search sha up h w boundDN searchReq conn).1
        = ({ Entries := [], Referrals := [], Controls := [], ResultCode := 0 }, some e)) := by
  refine ⟨?_, ?_⟩
  · intro sr hsr
    simp [Search, hg, hsr]
  · intro e he
    simp [Search, hg, he]

set_option maxRecDepth 100000 in
/-- A backend that answers with two entries (and a referral and a control of
its own): `Search` returns the two entries, no referral, no control, success.
A backend whose search fails on an existing session: `Search` returns that
error and the empty result. -/
theorem Search_result_mapping_witness :
    (Search charOctets upServing handler0 world0 "cn=admin" reqA connA).1
      = ({ Entries := [⟨"cn=a,dc=example,dc=com", []⟩, ⟨"cn=b,dc=example,dc=com", []⟩],
           Referrals := [], Controls := [], ResultCode := LDAPResultSuccess }, none) ∧
    (Search charOctets upDown
        (getSession charOctets upServing handler0 world0 connA).2.1 world0 "cn=admin" reqA
        connA).1
      = ({ Entries := [], Referrals := [], Controls := [], ResultCode := 0 },
         some "closed") :=
  ⟨(Search_result_mapping charOctets upServing handler0 world0 "cn=admin" reqA connA
      _ _ _ rfl).1 _ rfl,
   (Search_result_mapping charOctets upDown
      (getSession charOctets upServing handler0 world0 connA).2.1 world0 "cn=admin" reqA
      connA _ _ _ rfl).2 _ rfl⟩

/-! ## getSession and Close -/

/-- After a successful `getSession`, the sessions map holds the returned session
under the connection's identity. -/
theorem getSession_ok_stored (sha : String → List Byte) (up : Upstream) (h : ldapHandler)
    (w : World) (conn : Conn) (s : session) (h1 : ldapHandler) (w1 : World)
    (hg : getSession sha up h w conn = (.ok s, h1, w1)) :
    h1.sessions (connID sha conn) = some s := by
  cases hs : h.sessions (connID sha conn) with
  | some s0 =>
    rw [getSession_hit sha up h w conn s0 hs] at hg
    simp only [Prod.mk.injEq, Except.ok.injEq] at hg
    obtain ⟨rfl, rfl, -⟩ := hg
    exact hs
  | none =>
    cases hd : up.dial (w.trace ++ [.setDeadline conn.fd (w.now + ldapTimeout)]) "tcp"
      (h.ldapServer ++ ":" ++ h.ldapPort) with
    | some e =>
      rw [getSession_miss_fail sha up h w conn e hs hd] at hg
      simp at hg
    | none =>
      rw [getSession_miss_ok sha up h w conn hs hd] at hg
      simp only [Prod.mk.injEq, Except.ok.injEq] at hg
      obtain ⟨rfl, rfl, -⟩ := hg
      simp [mapSet]

/-- The handler of `startListener` holds no backend connection. -/
theorem Allocated_handler0 (w : World) : Allocated handler0 w := by
  intro k s hk
  simp [handler0] at hk

/-- The function `getSession` keeps every stored backend connection allocated. -/
theorem Allocated_getSession (sha : String → List Byte) (up : Upstream) (h : ldapHandler)
    (w : World) (conn : Conn) (ha : Allocated h w) :
    Allocated (getSession sha up h w conn).2.1 (getSession sha up h w conn).2.2 := by
  cases hs : h.sessions (connID sha conn) with
  | some s0 =>
    rw [getSession_hit sha up h w conn s0 hs]
    exact ha
  | none =>
    cases hd : up.dial (w.trace ++ [.setDeadline conn.fd (w.now + ldapTimeout)]) "tcp"
      (h.ldapServer ++ ":" ++ h.ldapPort) with
    | some e =>
      rw [getSession_miss_fail sha up h w conn e hs hd]
      exact ha
    | none =>
      rw [getSession_miss_ok sha up h w conn hs hd]
      intro k s hk
      simp only [mapSet] at hk
      split at hk
      · simp only [Option.some.injEq] at hk
        subst hk
        exact Nat.lt_succ_self _
      · exact Nat.lt_succ_of_lt (ha k s hk)

/-- The function `Close` keeps every stored backend connection allocated. -/
theorem Allocated_Close (sha : String → List Byte) (h : ldapHandler) (w : World)
    (conn : Conn) (ha : Allocated h w) :
    Allocated (Close sha h w conn).2.1 (Close sha h w conn).2.2 := by
  intro k s hk
  simp only [Close, mapDelete] at hk
  split at hk
  · simp at hk
  · exact ha k s hk

/-- The function `Bind` keeps every stored backend connection allocated. -/
theorem Allocated_Bind (sha : String → List Byte) (up : Upstream) (h : ldapHandler)
    (w : World) (bindDN bindSimplePw : String) (conn : Conn) (ha : Allocated h w) :
    Allocated (Bind sha up h w bindDN bindSimplePw conn).2.1
      (Bind sha up h w bindDN bindSimplePw conn).2.2 := by
  have hg := Allocated_getSession sha up h w conn ha
  rcases hgs : getSession sha up h w conn with ⟨r, h1, w1⟩
  rw [hgs] at hg
  cases r with
  | error e => simpa [Bind, hgs] using hg
  | ok s =>
    simp only [Bind, hgs]
    cases up.bind w1.trace s.ldap bindDN bindSimplePw <;> exact hg

/-- The function `Search` keeps every stored backend connection allocated. -/
theorem Allocated_Search (sha : String → List Byte) (up : Upstream) (h : ldapHandler)
    (w : World) (boundDN : String) (searchReq : SearchRequest) (conn : Conn)
    (ha : Allocated h w) :
    Allocated (Search sha up h w boundDN searchReq conn).2.1
      (Search sha up h w boundDN searchReq conn).2.2 := by
  have hg := Allocated_getSession sha up h w conn ha
  rcases hgs : getSession sha up h w conn with ⟨r, h1, w1⟩
  rw [hgs] at hg
  cases r with
  | error e => simpa [Search, hgs] using hg
  | ok s =>
    simp only [Search, hgs]
    cases up.searchWithPaging w1.trace s.ldap
      (NewSearchRequest searchReq.BaseDN ScopeWholeSubtree NeverDerefAliases 64 10 false
        searchReq.Filter searchReq.Attributes []) 64 <;> exact hg

/-- The function `getSession` keeps every session that is in the map. -/
theorem getSession_keeps (sha : String → List Byte) (up : Upstream) (h : ldapHandler)
    (w : World) (conn : Conn) (k : String) (s : session) (hk : h.sessions k = some s) :
    (getSession sha up h w conn).2.1.sessions k = some s := by
  cases hs : h.sessions (connID sha conn) with
  | some s0 =>
    rw [getSession_hit sha up h w conn s0 hs]
    exact hk
  | none =>
    cases hd : up.dial (w.trace ++ [.setDeadline conn.fd (w.now + ldapTimeout)]) "tcp"
      (h.ldapServer ++ ":" ++ h.ldapPort) with
    | some e =>
      rw [getSession_miss_fail sha up h w conn e hs hd]
      exact hk
    | none =>
      rw [getSession_miss_ok sha up h w conn hs hd]
      have hne : k ≠ connID sha conn := by
        intro hkc
        rw [hkc, hs] at hk
        simp at hk
      simp [mapSet, hne, hk]

/-- The handler after `Bind` is the handler after its `getSession`. -/
theorem Bind_handler (sha : String → List Byte) (up : Upstream) (h : ldapHandler)
    (w : World) (bindDN bindSimplePw : String) (conn : Conn) :
    (Bind sha up h w bindDN bindSimplePw conn).2.1 = (getSession sha up h w conn).2.1 := by
  rcases hgs : getSession sha up h w conn with ⟨r, h1, w1⟩
  cases r with
  | error e => simp [Bind, hgs]
  | ok s =>
    simp only [Bind, hgs]
    cases up.bind w1.trace s.ldap bindDN bindSimplePw <;> rfl

/-- The handler after `Search` is the handler after its `getSession`. -/
theorem Search_handler (sha : String → List Byte) (up : Upstream) (h : ldapHandler)
    (w : World) (boundDN : String) (searchReq : SearchRequest) (conn : Conn) :
    (Search sha up h w boundDN searchReq conn).2.1 = (getSession sha up h w conn).2.1 := by
  rcases hgs : getSession sha up h w conn with ⟨r, h1, w1⟩
  cases r with
  | error e => simp [Search, hgs]
  | ok s =>
    simp only [Search, hgs]
    cases up.searchWithPaging w1.trace s.ldap
      (NewSearchRequest searchReq.BaseDN ScopeWholeSubtree NeverDerefAliases 64 10 false
        searchReq.Filter searchReq.Attributes []) 64 <;> rfl

/-- A call other than `Close`, on whatever connection, keeps every session that
is in the map. -/
theorem Call_run_keeps (sha : String → List Byte) (up : Upstream) (h : ldapHandler)
    (w : World) (c : Call) (k : String) (s : session) (hk : h.sessions k = some s) :
    (c.run sha up h w).1.sessions k = some s := by
  cases c with
  | getSession conn => exact getSession_keeps sha up h w conn k s hk
  | Bind bindDN bindSimplePw conn =>
    show (Bind sha up h w bindDN bindSimplePw conn).2.1.sessions k = some s
    rw [Bind_handler]
    exact getSession_keeps sha up h w conn k s hk
  | Search boundDN searchReq conn =>
    show (Search sha up h w boundDN searchReq conn).2.1.sessions k = some s
    rw [Search_handler]
    exact getSession_keeps sha up h w conn k s hk

/-- A sequence of calls other than `Close` keeps every session that is in the
map. -/
theorem runCalls_keeps (sha : String → List Byte) (up : Upstream) (calls : List Call) :
    ∀ (h : ldapHandler) (w : World) (k : String) (s : session),
      h.sessions k = some s → (runCalls sha up h w calls).1.sessions k = some s := by
  induction calls with
  | nil =>
    intro h w k s hk
    exact hk
  | cons c cs ih =>
    intro h w k s hk
    exact ih _ _ k s (Call_run_keeps sha up h w c k s hk)

/-- C6. Idempotent reuse. If `getSession` on a connection succeeds with session
`s`, then after any sequence of further `getSession`, `Bind` and `Search` calls,
on this or on other client connections, with no `Close` among them, the next
`getSession` on the same connection (in any state `w2` of the outside world)
returns a session with the id and the backend connection of `s`, leaves the
sessions map as it is, and makes no `Dial` call. -/
theorem getSession_idempotent_reuse (sha : String → List Byte) (up : Upstream)
    (h : ldapHandler) (w : World) (conn : Conn) (s : session) (h1 : ldapHandler)
    (w1 : World) (hg : getSession sha up h w conn = (.ok s, h1, w1))
    (calls : List Call) (w2 : World) :
    (∃ s2, (getSession sha up (runCalls sha up h1 w1 calls).1 w2 conn).1 = .ok s2 ∧
      s2.id = s.id ∧ s2.ldap = s.ldap) ∧
    (getSession sha up (runCalls sha up h1 w1 calls).1 w2 conn).2.1.sessions
      = (runCalls sha up h1 w1 calls).1.sessions ∧
    dialCount (getSession sha up (runCalls sha up h1 w1 calls).1 w2 conn).2.2.trace
      = dialCount w2.trace := by
  have hs := getSession_ok_stored sha up h w conn s h1 w1 hg
  have hs2 := runCalls_keeps sha up calls h1 w1 (connID sha conn) s hs
  rw [getSession_hit sha up _ w2 conn s hs2]
  refine ⟨⟨s, rfl, rfl, rfl⟩, rfl, ?_⟩
  simp [World.emit, dialCount_append, dialCount]

set_option maxRecDepth 100000 in
/-- A first `getSession` for `connA` dials and stores backend connection `0`.
Then another client, `connE`, binds (a second dial, backend connection `1`) and
`connA` searches. The next `getSession` for `connA` returns backend connection
`0` again and dials no more; the session of `connE` is still in the map. -/
theorem getSession_idempotent_reuse_witness :
    getSession charOctets upServing handler0 world0 connA
      = (.ok ⟨connID charOctets connA, connA, 0⟩, handlerA, worldA) ∧
    (runCalls charOctets upServing handlerA worldA
        [.Bind "cn=e,dc=example,dc=com" "secret" connE,
         .Search "cn=admin" reqA connA]).1.sessions (connID charOctets connE)
      = some ⟨connID charOctets connE, connE, 1⟩ ∧
    dialCount (runCalls charOctets upServing handlerA worldA
        [.Bind "cn=e,dc=example,dc=com" "secret" connE,
         .Search "cn=admin" reqA connA]).2.trace = 2 ∧
    (getSession charOctets upServing
        (runCalls charOctets upServing handlerA worldA
          [.Bind "cn=e,dc=example,dc=com" "secret" connE,
           .Search "cn=admin" reqA connA]).1
        (runCalls charOctets upServing handlerA worldA
          [.Bind "cn=e,dc=example,dc=com" "secret" connE,
           .Search "cn=admin" reqA connA]).2 connA).1
      = .ok ⟨connID charOctets connA, connA, 0⟩ ∧
    dialCount (getSession charOctets upServing
        (runCalls charOctets upServing handlerA worldA
          [.Bind "cn=e,dc=example,dc=com" "secret" connE,
           .Search "cn=admin" reqA connA]).1
        (runCalls charOctets upServing handlerA worldA
          [.Bind "cn=e,dc=example,dc=com" "secret" connE,
           .Search "cn=admin" reqA connA]).2 connA).2.2.trace
      = dialCount (runCalls charOctets upServing handlerA worldA
          [.Bind "cn=e,dc=example,dc=com" "secret" connE,
           .Search "cn=admin" reqA connA]).2.trace :=
  ⟨rfl, rfl, by decide, rfl,
   (getSession_idempotent_reuse charOctets upServing handler0 world0 connA
     ⟨connID charOctets connA, connA, 0⟩ handlerA worldA rfl
     [.Bind "cn=e,dc=example,dc=com" "secret" connE, .Search "cn=admin" reqA connA]
     (runCalls charOctets upServing handlerA worldA
       [.Bind "cn=e,dc=example,dc=com" "secret" connE,
        .Search "cn=admin" reqA connA]).2).2.2⟩

/-- Connections with the same endpoint strings have the same identity. -/
theorem connID_of_endpoints (sha : String → List Byte) (c1 c2 : Conn)
    (hl : c1.localAddr = c2.localAddr) (hr : c1.remoteAddr = c2.remoteAddr) :
    connID sha c1 = connID sha c2 := by
  simp [connID, hl, hr]

/-- C8. After `Close conn` the identity of `conn` is absent from the sessions
map, which is untouched when the identity was absent already and unchanged at
every other identity, and `Close` returns no error. The next `getSession` on a
connection `conn2` with the endpoint pair of `conn`, in whatever state `w2` the
outside world is by then, makes exactly one `Dial` call, and when it yields a
session, that session's backend connection is not the one of the removed
session (a backend connection that exists when the dial is made, that is, one
allocated before it). -/
theorem Close_removes_session (sha : String → List Byte) (up : Upstream) (h : ldapHandler)
    (w : World) (conn : Conn) :
    (Close sha h w conn).1 = none ∧
    (Close sha h w conn).2.1.sessions (connID sha conn) = none ∧
    (h.sessions (connID sha conn) = none → (Close sha h w conn).2.1.sessions = h.sessions) ∧
    (∀ k, k ≠ connID sha conn → (Close sha h w conn).2.1.sessions k = h.sessions k) ∧
    (∀ (conn2 : Conn) (w2 : World),
      conn2.localAddr = conn.localAddr → conn2.remoteAddr = conn.remoteAddr →
      dialCount (getSession sha up (Close sha h w conn).2.1 w2 conn2).2.2.trace
        = dialCount w2.trace + 1 ∧
      (∀ sOld s2, h.sessions (connID sha conn) = some sOld → sOld.ldap < w2.nextLdap →
        (getSession sha up (Close sha h w conn).2.1 w2 conn2).1 = .ok s2 →
        s2.ldap ≠ sOld.ldap)) := by
  refine ⟨rfl, by simp [Close, mapDelete], ?_, ?_, ?_⟩
  · intro habs
    funext k
    simp only [Close, mapDelete]
    split
    · next hk => rw [hk, habs]
    · rfl
  · intro k hk
    simp [Close, mapDelete, hk]
  · intro conn2 w2 hl hr
    have hid : connID sha conn2 = connID sha conn := connID_of_endpoints sha conn2 conn hl hr
    have hgone : (Close sha h w conn).2.1.sessions (connID sha conn2) = none := by
      simp [Close, mapDelete, hid]
    cases hd : up.dial (w2.trace ++ [.setDeadline conn2.fd (w2.now + ldapTimeout)]) "tcp"
      ((Close sha h w conn).2.1.ldapServer ++ ":" ++ (Close sha h w conn).2.1.ldapPort) with
    | some e =>
      rw [getSession_miss_fail sha up _ w2 conn2 e hgone hd]
      refine ⟨by simp [World.emit, dialCount_append, dialCount], ?_⟩
      intro sOld s2 _ _ hok
      simp at hok
    | none =>
      rw [getSession_miss_ok sha up _ w2 conn2 hgone hd]
      refine ⟨by simp [dialCount_append, dialCount], ?_⟩
      intro sOld s2 _ hlt hok
      simp only [Except.ok.injEq] at hok
      subst hok
      exact Nat.ne_of_gt hlt

set_option maxRecDepth 100000 in
/-- The session of `connA` holds backend connection `0`. After `Close connA`,
`getSession` for `connB`, a new socket with the same endpoint pair, dials once
more and yields backend connection `1`, not `0`. -/
theorem Close_removes_session_witness :
    handlerA.sessions (connID charOctets connA) = some ⟨connID charOctets connA, connA, 0⟩ ∧
    (Close charOctets handlerA worldA connA).2.1.sessions (connID charOctets connA) = none ∧
    (getSession charOctets upServing (Close charOctets handlerA worldA connA).2.1
      (Close charOctets handlerA worldA connA).2.2 connB).1
      = .ok ⟨connID charOctets connB, connB, 1⟩ ∧
    dialCount (getSession charOctets upServing (Close charOctets handlerA worldA connA).2.1
        (Close charOctets handlerA worldA connA).2.2 connB).2.2.trace
      = dialCount (Close charOctets handlerA worldA connA).2.2.trace + 1 ∧
    (⟨connID charOctets connB, connB, 1⟩ : session).ldap
      ≠ (⟨connID charOctets connA, connA, 0⟩ : session).ldap :=
  ⟨rfl,
   (Close_removes_session charOctets upServing handlerA worldA connA).2.1,
   rfl,
   ((Close_removes_session charOctets upServing handlerA worldA connA).2.2.2.2 connB
     (Close charOctets handlerA worldA connA).2.2 rfl rfl).1,
   ((Close_removes_session charOctets upServing handlerA worldA connA).2.2.2.2 connB
     (Close charOctets handlerA worldA connA).2.2 rfl rfl).2
     ⟨connID charOctets connA, connA, 0⟩ ⟨connID charOctets connB, connB, 1⟩ rfl
     (Allocated_getSession charOctets upServing handler0 world0 connA
        (Allocated_handler0 world0) (connID charOctets connA)
        ⟨connID charOctets connA, connA, 0⟩ rfl)
     rfl⟩

set_option maxRecDepth 100000 in
/-- C3 fails on the code. The session of `connA` owns backend connection `0`.
`Close connA` closes the client socket and removes the session from the sessions
map, but calls no `Close` on backend connection `0`: after `Close` returns, no
`ldapClose 0` has happened, and the only call `Close` made is `connClose` on the
client socket. -/
theorem Close_leaves_backend_open :
    handlerA.sessions (connID charOctets connA) = some ⟨connID charOctets connA, connA, 0⟩ ∧
    (Close charOctets handlerA worldA connA).2.1.sessions (connID charOctets connA) = none ∧
    (Close charOctets handlerA worldA connA).2.2.trace
      = worldA.trace ++ [.connClose connA.fd] ∧
    Event.ldapClose 0 ∉ (Close charOctets handlerA worldA connA).2.2.trace := by
  refine ⟨rfl, rfl, rfl, ?_⟩
  decide

/-! ## connID -/

theorem hexDigit_inj : ∀ a b : Fin 16, hexDigit a.val = hexDigit b.val → a = b := by
  decide

theorem hexByte_inj (b c : Byte) (hbc : hexByte b = hexByte c) : b = c := by
  simp only [hexByte, List.cons.injEq, and_true] at hbc
  obtain ⟨h1, h2⟩ := hbc
  have hb := b.isLt
  have hc := c.isLt
  have e1 := hexDigit_inj ⟨b.val / 16, by omega⟩ ⟨c.val / 16, by omega⟩ h1
  have e2 := hexDigit_inj ⟨b.val % 16, by omega⟩ ⟨c.val % 16, by omega⟩ h2
  simp only [Fin.mk.injEq] at e1 e2
  apply Fin.ext
  omega

/-- Printing with `"% x"` loses nothing: different byte slices print differently. -/
theorem spacedHex_inj : ∀ xs ys : List Byte, spacedHex xs = spacedHex ys → xs = ys
  | [], [] => fun _ => rfl
  | [], [_] => fun hxy => by simp [spacedHex, hexByte] at hxy
  | [], _ :: _ :: _ => fun hxy => by simp [spacedHex, hexByte] at hxy
  | [_], [] => fun hxy => by simp [spacedHex, hexByte] at hxy
  | [b], [c] => fun hxy => by
    simp only [spacedHex] at hxy
    rw [hexByte_inj b c hxy]
  | [_], _ :: _ :: _ => fun hxy => by simp [spacedHex, hexByte] at hxy
  | _ :: _ :: _, [] => fun hxy => by simp [spacedHex, hexByte] at hxy
  | _ :: _ :: _, [_] => fun hxy => by simp [spacedHex, hexByte] at hxy
  | b :: b2 :: bs, c :: c2 :: cs => fun hxy => by
    simp only [spacedHex, hexByte, List.cons_append, List.nil_append, List.cons.injEq,
      true_and] at hxy
    obtain ⟨h1, h2, h3⟩ := hxy
    have hbc : b = c := hexByte_inj b c (by simp [hexByte, h1, h2])
    have ih := spacedHex_inj (b2 :: bs) (c2 :: cs) (by simpa [spacedHex] using h3)
    rw [hbc, ih]

theorem charOctets_cons (c : Char) (cs : List Char) :
    charOctets (String.mk (c :: cs))
      = [Fin.ofNat (c.toNat / 65536), Fin.ofNat (c.toNat / 256), Fin.ofNat c.toNat]
        ++ charOctets (String.mk cs) := by
  simp [charOctets, String.toList]

/-- The stand-in digest `charOctets` is collision-free. -/
theorem charOctets_injective : Function.Injective charOctets := by
  have key : ∀ xs ys : List Char,
      charOctets (String.mk xs) = charOctets (String.mk ys) → xs = ys := by
    intro xs
    induction xs with
    | nil =>
      intro ys hxy
      cases ys with
      | nil => rfl
      | cons y ys => simp [charOctets, String.toList] at hxy
    | cons x xs ih =>
      intro ys hxy
      cases ys with
      | nil => simp [charOctets, String.toList] at hxy
      | cons y ys =>
        rw [charOctets_cons, charOctets_cons] at hxy
        simp only [List.cons_append, List.nil_append, List.cons.injEq] at hxy
        obtain ⟨h1, h2, h3, h4⟩ := hxy
        have e1 := congrArg Fin.val h1
        have e2 := congrArg Fin.val h2
        have e3 := congrArg Fin.val h3
        simp only [Fin.ofNat] at e1 e2 e3
        have hx : x.toNat < 1114112 := by
          have := x.valid
          simp only [UInt32.isValidChar, Nat.isValidChar] at this
          show x.val.toNat < 1114112
          omega
        have hy : y.toNat < 1114112 := by
          have := y.valid
          simp only [UInt32.isValidChar, Nat.isValidChar] at this
          show y.val.toNat < 1114112
          omega
        have hn : x.toNat = y.toNat := by omega
        have hc : x = y := by
          have := congrArg Char.ofNat hn
          simpa [Char.ofNat_toNat] using this
        rw [hc, ih ys h4]
  intro s t hst
  cases s with
  | mk xs =>
    cases t with
    | mk ys => rw [key xs ys hst]

/-- The identity depends on the concatenation of the endpoint strings only:
`connC` and `connD` have different endpoint pairs (local `10.0.0.1:3` with
remote `89.1.1.1:5000`, local `10.0.0.1:38` with remote `9.1.1.1:5000`) with the
same concatenation, hence the same identity. Their local ports differ, so they
cannot both be connections of one listener; the listening port is what makes
the concatenation readable in one way only (`JoinHostPort_concat_inj`). -/
theorem connID_same_for_distinct_endpoint_pairs :
    (connC.localAddr, connC.remoteAddr) ≠ (connD.localAddr, connD.remoteAddr) ∧
    connC.localAddr ++ connC.remoteAddr = connD.localAddr ++ connD.remoteAddr ∧
    ∀ sha : String → List Byte, connID sha connC = connID sha connD := by
  refine ⟨by decide, by decide, ?_⟩
  intro sha
  have hcat : connC.localAddr ++ connC.remoteAddr = connD.localAddr ++ connD.remoteAddr := by
    decide
  simp only [connID, hcat]

/-- With a collision-free digest, two connections have the same identity exactly
when local ++ remote is the same string for both. In particular two
connections with the same local endpoint string and different remote endpoint
strings have different identities. -/
theorem connID_eq_iff_concat (sha : String → List Byte) (hinj : Function.Injective sha)
    (c1 c2 : Conn) :
    (connID sha c1 = connID sha c2 ↔
      c1.localAddr ++ c1.remoteAddr = c2.localAddr ++ c2.remoteAddr) ∧
    (c1.localAddr = c2.localAddr → c1.remoteAddr ≠ c2.remoteAddr →
      connID sha c1 ≠ connID sha c2) := by
  have hiff : connID sha c1 = connID sha c2 ↔
      c1.localAddr ++ c1.remoteAddr = c2.localAddr ++ c2.remoteAddr := by
    constructor
    · intro hid
      exact hinj (spacedHex_inj _ _ (congrArg String.data hid))
    · intro hcat
      simp only [connID, hcat]
  refine ⟨hiff, ?_⟩
  intro hl hr hid
  have hcat := hiff.mp hid
  rw [hl] at hcat
  apply hr
  apply String.ext
  have hd := congrArg String.data hcat
  simp only [String.data_append] at hd
  exact List.append_cancel_left hd

/-- A list is split in one way only at the first occurrence of `d`. -/
theorem split_at_first (d : Char) : ∀ (a b x y : List Char), d ∉ a → d ∉ b →
    a ++ d :: x = b ++ d :: y → a = b ∧ x = y
  | [], [], x, y, _, _, hxy => by simpa using hxy
  | [], c :: b, x, y, _, hb, hxy => by
    simp only [List.nil_append, List.cons_append, List.cons.injEq] at hxy
    exact absurd (hxy.1 ▸ List.mem_cons_self _ _) hb
  | c :: a, [], x, y, ha, _, hxy => by
    simp only [List.nil_append, List.cons_append, List.cons.injEq] at hxy
    exact absurd (hxy.1 ▸ List.mem_cons_self _ _) ha
  | c :: a, e :: b, x, y, ha, hb, hxy => by
    simp only [List.cons_append, List.cons.injEq] at hxy
    have ih := split_at_first d a b x y (fun hm => ha (List.mem_cons_of_mem _ hm))
      (fun hm => hb (List.mem_cons_of_mem _ hm)) hxy.2
    exact ⟨by rw [hxy.1, ih.1], ih.2⟩

/-- The characters of `JoinHostPort host port`. -/
theorem JoinHostPort_data (host port : String) :
    (JoinHostPort host port).data
      = if ':' ∈ host.data then '[' :: (host.data ++ ']' :: ':' :: port.data)
        else host.data ++ ':' :: port.data := by
  unfold JoinHostPort
  by_cases hc : ':' ∈ host.data
  · have hc2 : ':' ∈ host.toList := hc
    simp [hc, hc2, String.data_append]
  · have hc2 : ':' ∉ host.toList := hc
    simp [hc, hc2, String.data_append]

/-- A local endpoint printed for a known port, followed by any string, can be
read back in one way only, when the hosts have no bracket of their own. -/
theorem JoinHostPort_concat_inj (port host1 host2 r1 r2 : String)
    (hb1 : '[' ∉ host1.toList ∧ ']' ∉ host1.toList)
    (hb2 : '[' ∉ host2.toList ∧ ']' ∉ host2.toList)
    (hcat : JoinHostPort host1 port ++ r1 = JoinHostPort host2 port ++ r2) :
    JoinHostPort host1 port = JoinHostPort host2 port ∧ r1 = r2 := by
  have hd := congrArg String.data hcat
  simp only [String.data_append, JoinHostPort_data] at hd
  simp only [String.toList] at hb1 hb2
  have key : host1.data = host2.data ∧ r1.data = r2.data := by
    by_cases h1 : ':' ∈ host1.data <;> by_cases h2 : ':' ∈ host2.data
    · simp only [h1, h2, if_true, List.cons_append, List.cons.injEq, true_and,
        List.append_assoc] at hd
      have := split_at_first ']' _ _ _ _ hb1.2 hb2.2 hd
      refine ⟨this.1, ?_⟩
      have h3 := this.2
      simp only [List.cons.injEq, true_and] at h3
      exact List.append_cancel_left h3
    · simp only [h1, h2, if_true, if_false, List.cons_append, List.append_assoc] at hd
      exfalso
      cases hh : host2.data with
      | nil =>
        rw [hh] at hd
        simp at hd
      | cons c t =>
        rw [hh] at hd
        simp only [List.cons_append, List.cons.injEq] at hd
        apply hb2.1
        rw [hh, ← hd.1]
        exact List.mem_cons_self _ _
    · simp only [h1, h2, if_true, if_false, List.cons_append, List.append_assoc] at hd
      exfalso
      cases hh : host1.data with
      | nil =>
        rw [hh] at hd
        simp at hd
      | cons c t =>
        rw [hh] at hd
        simp only [List.cons_append, List.cons.injEq] at hd
        apply hb1.1
        rw [hh, hd.1]
        exact List.mem_cons_self _ _
    · simp only [h1, h2, if_false, List.cons_append, List.append_assoc] at hd
      have := split_at_first ':' _ _ _ _ h1 h2 hd
      exact ⟨this.1, List.append_cancel_left this.2⟩
  have e1 : host1 = host2 := String.ext key.1
  have e2 : r1 = r2 := String.ext key.2
  exact ⟨by rw [e1], e2⟩

/-- C4. `connID` is injective on the endpoint pairs of the proxy's client
connections. All of them are accepted by the one listener of `startListener`,
so their local endpoint strings are `JoinHostPort host port` for the one
listening port `port` and a host address (an IP literal, which has no bracket
of its own). For any two such connections whose (local, remote) pairs differ,
`connID` returns different identities, the digest being collision-free. -/
theorem connID_injective_on_endpoint_pairs (sha : String → List Byte)
    (hinj : Function.Injective sha) (port host1 host2 : String) (c1 c2 : Conn)
    (hb1 : '[' ∉ host1.toList ∧ ']' ∉ host1.toList)
    (hb2 : '[' ∉ host2.toList ∧ ']' ∉ host2.toList)
    (hl1 : c1.localAddr = JoinHostPort host1 port)
    (hl2 : c2.localAddr = JoinHostPort host2 port)
    (hne : (c1.localAddr, c1.remoteAddr) ≠ (c2.localAddr, c2.remoteAddr)) :
    connID sha c1 ≠ connID sha c2 := by
  intro hid
  have hcat := (connID_eq_iff_concat sha hinj c1 c2).1.mp hid
  rw [hl1, hl2] at hcat
  have hpair := JoinHostPort_concat_inj port host1 host2 c1.remoteAddr c2.remoteAddr
    hb1 hb2 hcat
  apply hne
  rw [hl1, hl2, hpair.1, hpair.2]

/-- Two connections to the listening port `389`, on two addresses of the proxy
host and from the same remote endpoint, have different identities under the
collision-free stand-in digest. -/
theorem connID_injective_on_endpoint_pairs_witness :
    connA.localAddr = JoinHostPort "10.0.0.1" "389" ∧
    connF.localAddr = JoinHostPort "10.0.0.2" "389" ∧
    (connA.localAddr, connA.remoteAddr) ≠ (connF.localAddr, connF.remoteAddr) ∧
    connID charOctets connA ≠ connID charOctets connF :=
  ⟨by decide, by decide, by decide,
   connID_injective_on_endpoint_pairs charOctets charOctets_injective "389" "10.0.0.1"
     "10.0.0.2" connA connF (by decide) (by decide) (by decide) (by decide) (by decide)⟩

/-! ## The lock -/

/-- C10 fails on the code. Two `getSession` calls (two clients binding at the
same time) run on the handler of `startListener`. The first call runs up to its
insert into the map, holding its lock; the second call then takes its `Lock`
without waiting, because the mutex it locks is the one of its own receiver copy;
both calls are now between `Lock` and `Unlock`, one about to write the map and
one about to read it, and the lock of the registered handler was never taken. -/
theorem concurrent_getSession_calls_overlap :
    (sched0.run [.call getSessionMissCode, .call getSessionMissCode,
        .step 0, .step 0, .step 0, .step 0, .step 0, .step 0,
        .step 1, .step 1]).map
      (fun s => (s.handlerLock.locked, s.frames.map fun f => (f.lock.locked, f.accessing, f.code)))
      = some (false,
          [(true, true, [.mapWrite, .unlock]),
           (true, true, [.mapRead, .unlock, .io, .lock, .mapWrite, .unlock])]) := by
  decide

end LdapProxy
